import Mathlib

/-!
# Verification of the article-extractor core services

Shallow embedding, in Lean 4, of the core services of the article
extractor (BlogSummrizer): the error taxonomy and centralized
`ErrorHandler` (`src/utils/errors.ts`, `src/utils/ErrorHandler.ts`), the
`OllamaClient` summarization engine, the `ImageDownloader` and the
`BrowserEngine` paywall heuristic, together with theorems settling the
spec's testable properties on that embedding.

External effects are modelled as explicit parameters: the outcome of an
HTTP call, of a file download, or of a hash computation is passed in as
a function or an `Except` value, and stateful classes become explicit
state passing.  JavaScript strings are modelled as Lean `String`s (code
points instead of UTF-16 units), numbers as `Nat` where only
non-negative integers occur, and JS falsiness of `0`, `""`, `null` and
`undefined` is spelled out at each use site.
-/

/-! ## Generic string helpers (JS `String.prototype.includes`, regex pieces) -/

/-- `subOccurs pat l` : `pat` occurs as a contiguous run inside `l`
(a substring match on character lists). -/
def subOccurs (pat : List Char) (l : List Char) : Bool :=
  l.tails.any (fun t => pat.isPrefixOf t)

/-- JS `a.includes(b)` : `b` occurs as a contiguous substring of `a`. -/
def jsIncludes (a b : String) : Bool :=
  subOccurs b.toList a.toList

/-- Regex fragment `A\s*B` : somewhere in `l`, the literal `a` followed by
any amount of whitespace followed by the literal `b`.  JS `\s` is modelled
by `Char.isWhitespace`; the greedy skip is equivalent to the regex here
because the `b` literals used below start with a non-whitespace character. -/
def gapOccurs (a b : List Char) (l : List Char) : Bool :=
  l.tails.any (fun t =>
    a.isPrefixOf t && b.isPrefixOf ((t.drop a.length).dropWhile Char.isWhitespace))

/-- A character matched by the JS regex `.` without the `s` flag:
anything but a line terminator. -/
def isDotChar (c : Char) : Bool :=
  !(c == '\n' || c == '\r' || c == Char.ofNat 0x2028 || c == Char.ofNat 0x2029)

/-- Regex fragment `.*B` anchored at the start of the list: any run of
non-line-terminator characters, then the literal `b`. -/
def dotStarThen (b : List Char) : List Char → Bool
  | [] => b.isPrefixOf ([] : List Char)
  | c :: rest => b.isPrefixOf (c :: rest) || (isDotChar c && dotStarThen b rest)

/-- `subOccurs` agrees with `List.IsInfix`. -/
theorem subOccurs_iff (pat l : List Char) :
    subOccurs pat l = true ↔ pat <:+: l := by
  unfold subOccurs
  rw [List.any_eq_true]
  constructor
  · rintro ⟨t, ht, hp⟩
    rw [List.mem_tails] at ht
    rw [List.isPrefixOf_iff_prefix] at hp
    exact List.infix_iff_prefix_suffix.mpr ⟨t, hp, ht⟩
  · intro h
    obtain ⟨t, hp, ht⟩ := List.infix_iff_prefix_suffix.mp h
    exact ⟨t, (List.mem_tails _ _).mpr ht, List.isPrefixOf_iff_prefix.mpr hp⟩

/-- `jsIncludes` agrees with substring containment on the character lists. -/
theorem jsIncludes_iff (a b : String) :
    jsIncludes a b = true ↔ b.toList <:+: a.toList := by
  unfold jsIncludes
  exact subOccurs_iff _ _

/-! ## Error taxonomy (`src/utils/errors.ts`)

Every error class in `errors.ts` is a leaf subclass of
`ArticleExtractionError`; `instanceof` tests therefore coincide with a
`kind` tag, with `ErrKind.base` standing for a value constructed through
the public base-class constructor itself. -/

inductive ErrKind where
  | base
  | paywallDetected
  | cookieExpired
  | ollamaConnection
  | ollamaModelNotFound
  | insufficientMemory
  | imageDownload
  | networkTimeout
  | fileSystem
  | configValidation
deriving DecidableEq

/-- An `ArticleExtractionError` value: its class (`kind`), `message`,
`code`, and `recoverable` flag, all fixed at construction.  The
`context`, `recoverySuggestions` and `timestamp` fields are carried by
the source objects but never read by the logic under verification, so
they are not modelled. -/
structure ExtractionError where
  kind : ErrKind
  message : String
  code : String
  recoverable : Bool
deriving DecidableEq

/-- `new PaywallDetectedError(url, paywallType?)`. -/
def mkPaywallDetectedError (url : String) : ExtractionError :=
  { kind := .paywallDetected
  , message := "Paywall detected on " ++ url ++ ". Unable to access article content."
  , code := "PAYWALL_DETECTED"
  , recoverable := true }

/-- `new CookieExpiredError(cookiePath?, expiredCount?)`.  The message
appends the count sentence only when `expiredCount` is truthy
(present and non-zero); the class passes `recoverable = true` to the
base constructor. -/
def mkCookieExpiredError (expiredCount : Option Nat) : ExtractionError :=
  { kind := .cookieExpired
  , message := "Session cookies have expired. " ++
      (match expiredCount with
       | some (n + 1) => "Found " ++ toString (n + 1) ++ " expired cookies."
       | _ => "")
  , code := "COOKIE_EXPIRED"
  , recoverable := true }

/-- `new OllamaConnectionError(baseUrl, originalError?)`. -/
def mkOllamaConnectionError (baseUrl : String) : ExtractionError :=
  { kind := .ollamaConnection
  , message := "Cannot connect to Ollama server at " ++ baseUrl ++ ". Server may not be running."
  , code := "OLLAMA_NOT_RUNNING"
  , recoverable := true }

/-- `new OllamaModelNotFoundError(modelName, availableModels?)`. -/
def mkOllamaModelNotFoundError (modelName : String) (availableModels : List String) :
    ExtractionError :=
  { kind := .ollamaModelNotFound
  , message := "Model \x22" ++ modelName ++ "\x22 not found. " ++
      (if availableModels.isEmpty then ""
       else "Available models: " ++ String.intercalate ", " availableModels)
  , code := "MODEL_NOT_FOUND"
  , recoverable := true }

/-- `new InsufficientMemoryError(modelName, requiredMemory?)`. -/
def mkInsufficientMemoryError (modelName : String) : ExtractionError :=
  { kind := .insufficientMemory
  , message := "Insufficient memory to load model \x22" ++ modelName ++ "\x22. "
  , code := "INSUFFICIENT_MEMORY"
  , recoverable := true }

/-- `new ImageDownloadError(imageSrc, reason?, originalError?)`. -/
def mkImageDownloadError (imageSrc : String) (reason : Option String) : ExtractionError :=
  { kind := .imageDownload
  , message := "Failed to download image: " ++ imageSrc ++ ". " ++
      (match reason with | some r => r | none => "")
  , code := "IMAGE_DOWNLOAD_FAILED"
  , recoverable := true }

/-- `new NetworkTimeoutError(url, timeout)`. -/
def mkNetworkTimeoutError (url : String) (timeout : Nat) : ExtractionError :=
  { kind := .networkTimeout
  , message := "Request to " ++ url ++ " timed out after " ++ toString timeout ++ "ms."
  , code := "NETWORK_TIMEOUT"
  , recoverable := true }

/-- `new FileSystemError(operation, filePath, originalError?)`. -/
def mkFileSystemError (operation filePath : String) : ExtractionError :=
  { kind := .fileSystem
  , message := "File system error during " ++ operation ++ ": " ++ filePath ++ ". "
  , code := "FILE_SYSTEM_ERROR"
  , recoverable := true }

/-- `new ConfigValidationError(configKey, reason, expectedFormat?)`:
the only class that passes `recoverable = false` to the base constructor. -/
def mkConfigValidationError (configKey reason : String) : ExtractionError :=
  { kind := .configValidation
  , message := "Invalid configuration for \x22" ++ configKey ++ "\x22: " ++ reason
  , code := "CONFIG_VALIDATION_ERROR"
  , recoverable := false }

/-- An arbitrary JS `Error` reaching `ErrorHandler.handle`: either an
`ArticleExtractionError` (any kind, including a raw base-class value
with caller-chosen `code` and `recoverable`), or a plain `Error`. -/
inductive JSError where
  | extraction (e : ExtractionError)
  | plain (name message : String)
deriving DecidableEq

/-! ## `ErrorHandler` (`src/utils/ErrorHandler.ts`)

The handler's mutable state is the per-code recovery-attempt map and
the error counter; `handle` is embedded as a state-passing function.
Options are fixed to their defaults (`verbose = false`,
`exitOnFatal = false`, `logErrors = true`): logging is unobservable
here and `process.exit` is never reached with `exitOnFatal = false`.
Backoff sleeps are recorded in the result instead of actually waiting. -/

namespace ErrorHandler

/-- `this.recoveryAttempts.get(code) || 0` on the `Map` (association list). -/
def getAttempts (attempts : List (String × Nat)) (code : String) : Nat :=
  match attempts.find? (fun p => p.1 == code) with
  | some p => p.2
  | none => 0

/-- `this.recoveryAttempts.set(code, n)`. -/
def setAttempts : List (String × Nat) → String → Nat → List (String × Nat)
  | [], code, n => [(code, n)]
  | p :: rest, code, n =>
    if p.1 == code then (code, n) :: rest else p :: setAttempts rest code n

/-- The `ErrorHandler` instance state: `errorCount` and `recoveryAttempts`. -/
structure State where
  errorCount : Nat
  recoveryAttempts : List (String × Nat)
deriving DecidableEq

/-- A freshly constructed handler. -/
def initialState : State := { errorCount := 0, recoveryAttempts := [] }

/-- `normalizeError`: pass `ArticleExtractionError`s through, wrap any
other `Error` as code `UNKNOWN_ERROR`, `recoverable = true`. -/
def normalizeError : JSError → ExtractionError
  | .extraction e => e
  | .plain _ message =>
    { kind := .base, message := message, code := "UNKNOWN_ERROR", recoverable := true }

/-- `attemptRecovery(error)`: returns the recovery outcome, the updated
attempt map, and the list of backoff sleeps performed.  Mirrors the
source exactly: the attempt counter is read, checked against the cap,
incremented, and then — inside `recoverFromNetworkTimeout` — *read
again*, so the network-timeout branch sees the already-incremented
count. -/
def attemptRecovery (attempts : List (String × Nat)) (e : ExtractionError) :
    Bool × List (String × Nat) × List Nat :=
  let attemptCount := getAttempts attempts e.code
  if attemptCount ≥ 3 then
    -- Prevent infinite recovery loops
    (false, attempts, [])
  else
    let attempts' := setAttempts attempts e.code (attemptCount + 1)
    match e.kind with
    | .imageDownload =>
      -- recoverFromImageError: continue without the failed image
      (true, attempts', [])
    | .ollamaConnection =>
      -- recoverFromOllamaConnection: continue without summarization
      (true, attempts', [])
    | .ollamaModelNotFound =>
      -- recoverFromModelNotFound: fall back or skip; both branches return true
      (true, attempts', [])
    | .networkTimeout =>
      -- recoverFromNetworkTimeout re-reads this.recoveryAttempts.get(code)
      let c := getAttempts attempts' e.code
      if c < 3 then (true, attempts', [2 ^ c * 1000])
      else (false, attempts', [])
    | .paywallDetected =>
      -- recoverFromPaywall: cannot recover without user intervention
      (false, attempts', [])
    | .cookieExpired =>
      -- recoverFromCookieExpiry: cannot recover without new cookies
      (false, attempts', [])
    | _ =>
      -- default case of the switch
      (false, attempts', [])

/-- The `ErrorHandlingResult` produced by `handle`, extended with the
backoff sleeps actually performed during recovery. -/
structure HandlingResult where
  handled : Bool
  recovered : Bool
  error : ExtractionError
  sleeps : List Nat
deriving DecidableEq

/-- `handle(error)`: count the error, normalize it, and attempt recovery
exactly when the normalized error is `recoverable`. -/
def handle (st : State) (err : JSError) : HandlingResult × State :=
  let st1 : State := { st with errorCount := st.errorCount + 1 }
  let e := normalizeError err
  if e.recoverable then
    let r := attemptRecovery st1.recoveryAttempts e
    ({ handled := true, recovered := r.1, error := e, sleeps := r.2.2 },
     { st1 with recoveryAttempts := r.2.1 })
  else
    ({ handled := true, recovered := false, error := e, sleeps := [] }, st1)

/-- A sequence of `handle` calls on one handler instance (one run). -/
def run (st : State) : List JSError → List HandlingResult × State
  | [] => ([], st)
  | err :: rest =>
    let r := handle st err
    let rs := run r.2 rest
    (r.1 :: rs.1, rs.2)

/-- `ErrorHandler.isFatal(error)`: an `instanceof` test against
`PaywallDetectedError`, `CookieExpiredError` and `ConfigValidationError`. -/
def isFatal (err : JSError) : Bool :=
  match err with
  | .extraction e =>
    match e.kind with
    | .paywallDetected => true
    | .cookieExpired => true
    | .configValidation => true
    | _ => false
  | .plain _ _ => false

/-- `ErrorHandler.isRecoverable(error)`. -/
def isRecoverable (err : JSError) : Bool :=
  match err with
  | .extraction e => e.recoverable
  | .plain _ _ => true

end ErrorHandler

/-! ## `OllamaClient` (`src/services/OllamaClient.ts`)

The model inventory is fetched once and cached for the lifetime of the
instance; since the cached value never changes, the cache is modelled by
passing the single fetch outcome (`GET /api/tags`) as an `Except`
parameter.  The outcome of `POST /api/generate` for a given model is the
parameter `genOutcome` (the article text, prompt template and options
are fixed for the duration of one call chain, so only the model name
varies). -/

/-- One entry of the server-side model inventory. -/
structure OllamaModelInfo where
  name : String
  size : Nat
  digest : String
  modifiedAt : String
deriving DecidableEq

/-- `SummarizationResult` (telemetry fields `tokensUsed` and
`processingTime` are wall-clock data, not modelled). -/
structure SummarizationResult where
  summary : String
  model : String
deriving DecidableEq

namespace OllamaClient

/-- `getAvailableModels()`: return the (cached) inventory, or rethrow
the fetch failure wrapped in a descriptive message. -/
def getAvailableModels (fetch : Except String (List OllamaModelInfo)) :
    Except String (List OllamaModelInfo) :=
  match fetch with
  | .ok models => .ok models
  | .error msg => .error ("Failed to fetch Ollama models: " ++ msg)

/-- `hasModel(modelName)`: substring-match against the inventory;
any failure of the inventory fetch is caught and yields `false`. -/
def hasModel (fetch : Except String (List OllamaModelInfo)) (modelName : String) : Bool :=
  match getAvailableModels fetch with
  | .ok models => models.any (fun m => jsIncludes m.name modelName)
  | .error _ => false

/-- The `for (const preferred of preferredModels)` loop of
`selectBestModel`: the first preference entry that substring-matches
some inventory name. -/
def firstPreferred (modelNames : List String) : List String → Option String
  | [] => none
  | preferred :: rest =>
    if modelNames.any (fun name => jsIncludes name preferred) then some preferred
    else firstPreferred modelNames rest

/-- `selectBestModel(preferredModels)`: first matching preference entry,
else `modelNames[0] || null` (an empty first name is JS-falsy and yields
`null`); any fetch failure is caught and yields `null`. -/
def selectBestModel (fetch : Except String (List OllamaModelInfo))
    (preferredModels : List String) : Option String :=
  match getAvailableModels fetch with
  | .error _ => none
  | .ok models =>
    let modelNames := models.map (fun m => m.name)
    match firstPreferred modelNames preferredModels with
    | some preferred => some preferred
    | none =>
      match modelNames.head? with
      | some n => if n = "" then none else some n
      | none => none

/-- The `catch` block of `generateSummary`: remap the failure message.
In the model-not-found branch the source awaits `getAvailableModels()`
while building the new message, so a fetch failure surfaces instead. -/
def generateSummaryFailure (fetch : Except String (List OllamaModelInfo))
    (baseUrl model message : String) : String :=
  if jsIncludes message "ECONNREFUSED" then
    "Ollama server not running at " ++ baseUrl ++ ". Please start Ollama: ollama serve"
  else if jsIncludes message ("Model '" ++ model ++ "' not found") then
    match getAvailableModels fetch with
    | .ok models =>
      "Model '" ++ model ++ "' not found. Available models: " ++
        String.intercalate ", " (models.map (fun m => m.name))
    | .error e => e
  else
    "Summarization failed: " ++ message

/-- `generateSummary(text, {...options, model})`: issue one generation
request for `model`; an empty response body is JS-falsy and raises
`Empty response from Ollama` inside the `try`, which the `catch`
then remaps like any other failure. -/
def generateSummary (fetch : Except String (List OllamaModelInfo)) (baseUrl : String)
    (genOutcome : String → Except String String) (model : String) :
    Except String SummarizationResult :=
  match genOutcome model with
  | .ok response =>
    if response = "" then
      .error (generateSummaryFailure fetch baseUrl model "Empty response from Ollama")
    else
      .ok { summary := response.trim, model := model }
  | .error message =>
    .error (generateSummaryFailure fetch baseUrl model message)

/-- The `for (const model of modelsToTry)` loop of
`generateSummaryWithFallback`, carrying `lastError`:
skip unavailable models, return the first successful generation,
record failures and continue. -/
def fallbackLoop (fetch : Except String (List OllamaModelInfo)) (baseUrl : String)
    (genOutcome : String → Except String String) :
    List String → Option String → Except String SummarizationResult
  | [], lastError =>
    -- `lastError?.message || 'Unknown error'`: absent or empty message is falsy
    .error ("All summarization models failed. Last error: " ++
      (match lastError with
       | some m => if m = "" then "Unknown error" else m
       | none => "Unknown error"))
  | model :: rest, lastError =>
    if hasModel fetch model then
      match generateSummary fetch baseUrl genOutcome model with
      | .ok r => .ok r
      | .error e => fallbackLoop fetch baseUrl genOutcome rest (some e)
    else
      fallbackLoop fetch baseUrl genOutcome rest lastError

/-- `generateSummaryWithFallback(text, options)`: try
`[primaryModel, ...fallbackModels]` strictly in order. -/
def generateSummaryWithFallback (fetch : Except String (List OllamaModelInfo))
    (baseUrl : String) (genOutcome : String → Except String String)
    (primaryModel : String) (fallbackModels : List String) :
    Except String SummarizationResult :=
  fallbackLoop fetch baseUrl genOutcome (primaryModel :: fallbackModels) none

/-- How one candidate updates the accumulated `lastError`: an
unavailable model leaves it unchanged, a failing generation replaces it. -/
def lastFailureStep (fetch : Except String (List OllamaModelInfo)) (baseUrl : String)
    (genOutcome : String → Except String String) (acc : Option String) (model : String) :
    Option String :=
  if hasModel fetch model then
    match generateSummary fetch baseUrl genOutcome model with
    | .ok _ => acc
    | .error e => some e
  else acc

/-- The `lastError` value accumulated by a full (successless) traversal
of the candidate list. -/
def lastFailure (fetch : Except String (List OllamaModelInfo)) (baseUrl : String)
    (genOutcome : String → Except String String) (models : List String) :
    Option String :=
  models.foldl (lastFailureStep fetch baseUrl genOutcome) none

end OllamaClient

/-! ## `ImageDownloader` (`src/services/ImageDownloader.ts`) -/

/-- Modelled from the spec: the `RemoteImage` record produced by the
page-inspection collaborator (`ImageExtractor.ts`, not under `src/`):
src URL, alt/title text, optional srcset, `isFeatureImage` flag. -/
structure Image where
  src : String
  alt : Option String
  title : Option String
  srcset : Option String
  isFeatureImage : Bool
deriving DecidableEq

/-- `LocalImage extends Image`: local storage path, relative path,
content hash, optimized flag and dimensions added by the downloader. -/
structure LocalImage extends Image where
  localPath : String
  relativePath : String
  hash : String
  optimized : Bool
  width : Option Nat
  height : Option Nat
deriving DecidableEq

/-- The external effects used by the downloader, passed as functions:
the HTTP fetch of an image URL (bytes as `List Nat`), the SHA-256 hash
of a byte buffer (`hashFile` over the temp file just written), the
`sharp` resize/recompress step returning the final dimensions, and the
MD5-based `generateFilename`. -/
structure ImageEnv where
  download : String → Except String (List Nat)
  sha256 : List Nat → String
  optimize : List Nat → Except String (Nat × Nat)
  filename : String → Nat → String

namespace ImageDownloader

/-- `downloadImage(url)`: wrap any fetch failure in a descriptive message. -/
def downloadImage (env : ImageEnv) (url : String) : Except String (List Nat) :=
  match env.download url with
  | .ok buffer => .ok buffer
  | .error msg => .error ("Failed to download image from " ++ url ++ ": " ++ msg)

/-- `processImage(image, index, outputDir)`: download, hash the raw
bytes, optimize, and assemble the `LocalImage`; any failure is wrapped
in a `Failed to process image` message. -/
def processImage (env : ImageEnv) (image : Image) (index : Nat) (outputDir : String) :
    Except String LocalImage :=
  let filename := env.filename image.src index
  let localPath := outputDir ++ "/" ++ filename
  let relativePath := "images/" ++ filename
  match downloadImage env image.src with
  | .error msg => .error ("Failed to process image " ++ image.src ++ ": " ++ msg)
  | .ok buffer =>
    let hash := env.sha256 buffer
    match env.optimize buffer with
    | .error msg => .error ("Failed to process image " ++ image.src ++ ": " ++ msg)
    | .ok dims =>
      .ok { toImage := image
          , localPath := localPath
          , relativePath := relativePath
          , hash := hash
          , optimized := true
          , width := some dims.1
          , height := some dims.2 }

/-- `Promise.allSettled` on one promise: a fulfilled value or a
discarded rejection. -/
def settle (e : Except String LocalImage) : Option LocalImage :=
  e.toOption

/-- The per-settled-result body of the batch loop: keep a fulfilled
image unless its hash was already seen; log-and-skip failures. -/
def dedupStep (acc : List String × List LocalImage) (r : Option LocalImage) :
    List String × List LocalImage :=
  match r with
  | none => acc
  | some li => if acc.1.contains li.hash then acc else (li.hash :: acc.1, acc.2 ++ [li])

/-- The `for (let i = 0; i < images.length; i += maxConcurrent)` loop of
`downloadImages`, over the input images paired with their global
indices.  The source loops forever when `maxConcurrent = 0` (the config
schema guarantees `maxConcurrent ≥ 1`); that unreachable case returns
the accumulator. -/
def downloadImagesLoop (env : ImageEnv) (outputDir : String) (maxConcurrent : Nat)
    (rest : List (Nat × Image)) (hashes : List String) (results : List LocalImage) :
    List LocalImage :=
  if rest = [] then results
  else if maxConcurrent = 0 then results
  else
    let batch := rest.take maxConcurrent
    let settled := batch.map (fun p => settle (processImage env p.2 p.1 outputDir))
    let acc := settled.foldl dedupStep (hashes, results)
    downloadImagesLoop env outputDir maxConcurrent (rest.drop maxConcurrent) acc.1 acc.2
termination_by rest.length
decreasing_by
  rename_i h0 h1
  rw [List.length_drop]
  apply Nat.sub_lt
  · cases rest with
    | nil => exact absurd rfl h0
    | cons a l => exact Nat.succ_pos _
  · exact Nat.pos_of_ne_zero h1

/-- `downloadImages(images, outputDir, maxConcurrent)`: batched
processing with global indices, hash-based deduplication across the
whole run, failures dropped from the result. -/
def downloadImages (env : ImageEnv) (images : List Image) (outputDir : String)
    (maxConcurrent : Nat) : List LocalImage :=
  downloadImagesLoop env outputDir maxConcurrent images.enum [] []

end ImageDownloader

/-! ## `BrowserEngine.detectPaywall` (`src/services/BrowserEngine.ts`)

`detectPaywall(page)` reads two page-derived strings: the rendered HTML
(`page.content()`) and the body text (`document.body.innerText`); the
embedding takes both as inputs.  The two regexes
`/subscribe|sign\s*in|log\s*in|paywall/i` and `/metered|wall|modal.*close/i`
are spelled out alternative by alternative over the lowercased content
(case-insensitive matching on the lowercase-literal patterns). -/

inductive PaywallType where
  | softOverlay
  | clientHard
  | serverSide
  | none
deriving DecidableEq

namespace BrowserEngine

/-- `softPaywallPatterns.some(p => p.test(content))`. -/
def softPaywallMatch (content : String) : Bool :=
  let c := content.toList.map Char.toLower
  (subOccurs "subscribe".toList c
    || gapOccurs "sign".toList "in".toList c
    || gapOccurs "log".toList "in".toList c
    || subOccurs "paywall".toList c)
  || (subOccurs "metered".toList c
    || subOccurs "wall".toList c
    || c.tails.any (fun t =>
        "modal".toList.isPrefixOf t && dotStarThen "close".toList (t.drop "modal".toList.length)))

/-- `detectPaywall`, given the rendered HTML and the body text: keyword
match plus short body text classifies as `SOFT_OVERLAY`; every other
path (including the `catch`) returns `NONE`. -/
def detectPaywall (content bodyText : String) : PaywallType :=
  if softPaywallMatch content then
    if bodyText.length < 500 then PaywallType.softOverlay
    else PaywallType.none
  else PaywallType.none

end BrowserEngine

/-! ## `CookieManager.detectExpiredCookies` (`src/services/CookieManager.ts`) -/

/-- The `Cookie` record of `CookieManager.ts` (expiry in epoch ms). -/
structure Cookie where
  name : String
  value : String
  domain : String
  path : Option String
  secure : Option Bool
  httpOnly : Option Bool
  sameSite : Option String
  expires : Option Nat
deriving DecidableEq

namespace CookieManager

/-- The filter predicate `cookie.expires && cookie.expires < now`:
an absent or zero (JS-falsy) expiry never counts as expired. -/
def isExpired (now : Nat) (cookie : Cookie) : Bool :=
  match cookie.expires with
  | some e => if e = 0 then false else decide (e < now)
  | none => false

/-- `detectExpiredCookies(cookies)` at current time `now`. -/
def detectExpiredCookies (now : Nat) (cookies : List Cookie) : List Cookie :=
  cookies.filter (isExpired now)

end CookieManager

/-! ## Claim theorems -/

/-- C3: `isFatal(e)` returns true if and only if `e` is a
`PaywallDetectedError`, a `CookieExpiredError`, or a
`ConfigValidationError`; for every other error it returns false. -/
theorem claim3_isFatal (err : JSError) :
    ErrorHandler.isFatal err = true ↔
      ∃ e, err = JSError.extraction e ∧
        (e.kind = ErrKind.paywallDetected ∨ e.kind = ErrKind.cookieExpired ∨
          e.kind = ErrKind.configValidation) := by
  cases err with
  | plain n m => simp [ErrorHandler.isFatal]
  | extraction e =>
    obtain ⟨k, msg, code, rec⟩ := e
    cases k <;> simp [ErrorHandler.isFatal]

/-- C3 witness: `isFatal` evaluated on a concrete `PaywallDetectedError`
and on a concrete non-fatal error. -/
theorem claim3_witness :
    ErrorHandler.isFatal (JSError.extraction (mkPaywallDetectedError "https://example.com")) = true :=
  (claim3_isFatal (JSError.extraction (mkPaywallDetectedError "https://example.com"))).mpr
    ⟨mkPaywallDetectedError "https://example.com", rfl, Or.inl rfl⟩

/-- C10: when the model-inventory fetch fails, `hasModel` returns false
and `selectBestModel` returns none; neither propagates the failure. -/
theorem claim10_inventory_failure_absorbed (msg modelName : String)
    (preferredModels : List String) :
    OllamaClient.hasModel (Except.error msg) modelName = false ∧
    OllamaClient.selectBestModel (Except.error msg) preferredModels = none :=
  ⟨rfl, rfl⟩

/-- C10 witness: concrete fetch failure. -/
theorem claim10_witness :
    OllamaClient.hasModel (Except.error "connect ECONNREFUSED") "llama3.1" = false ∧
    OllamaClient.selectBestModel (Except.error "connect ECONNREFUSED") ["llama3.1", "mistral"] = none :=
  claim10_inventory_failure_absorbed "connect ECONNREFUSED" "llama3.1" ["llama3.1", "mistral"]

/-- C1 (code bug): the claim — and the source's own comment
`// 1s, 2s, 4s` next to the backoff computation — say the delays are
1000ms, 2000ms, 4000ms for recovery attempts 1–3, with the give-up only
afterwards.  The code increments the per-code attempt counter in
`attemptRecovery` *before* `recoverFromNetworkTimeout` re-reads it, so
the 1st attempt sleeps 2000ms, the 2nd sleeps 4000ms, and the 3rd
already returns `recovered = false` without sleeping.  This theorem
evaluates the embedded handler on four consecutive `NetworkTimeoutError`s
from a fresh instance. -/
theorem claim1_networkTimeout_backoff_bug :
    ((ErrorHandler.run ErrorHandler.initialState
        (List.replicate 4
          (JSError.extraction (mkNetworkTimeoutError "https://example.com" 30000)))).1.map
      (fun r => (r.recovered, r.sleeps)))
      = [(true, [2000]), (true, [4000]), (false, []), (false, [])] := by
  rfl

/-- C2 (counterexample): the claim says the 4th and every later
`handle()` call with an error of code X yields `recovered = false`
unconditionally.  But the attempt counter only advances on calls whose
error is `recoverable`: three non-recoverable base-class errors of code
`IMAGE_DOWNLOAD_FAILED` leave the counter at 0, and a 4th call with a
recoverable `ImageDownloadError` of the same code recovers. -/
theorem claim2_counterexample :
    ((ErrorHandler.run ErrorHandler.initialState
        [JSError.extraction
          { kind := .base, message := "boom", code := "IMAGE_DOWNLOAD_FAILED", recoverable := false },
         JSError.extraction
          { kind := .base, message := "boom", code := "IMAGE_DOWNLOAD_FAILED", recoverable := false },
         JSError.extraction
          { kind := .base, message := "boom", code := "IMAGE_DOWNLOAD_FAILED", recoverable := false },
         JSError.extraction (mkImageDownloadError "https://example.com/img.jpg" none)]).1.map
      (fun r => r.recovered)) = [false, false, false, true] := by
  rfl

namespace ErrorHandler

/-- Reading back the attempt counter just written for a code. -/
theorem getAttempts_set_self (m : List (String × Nat)) (code : String) (n : Nat) :
    getAttempts (setAttempts m code n) code = n := by
  induction m with
  | nil => simp [setAttempts, getAttempts]
  | cons p rest ih =>
    by_cases h : p.1 == code
    · simp [setAttempts, getAttempts, h]
    · simp only [setAttempts, h]
      simpa [getAttempts, h] using ih

/-- Writing one code's counter leaves every other code's counter alone. -/
theorem getAttempts_set_other (m : List (String × Nat)) (code c : String) (n : Nat)
    (hne : (c == code) = false) :
    getAttempts (setAttempts m code n) c = getAttempts m c := by
  have hcn : (code == c) = false := by
    simp only [beq_eq_false_iff_ne, ne_eq] at hne ⊢
    intro hc
    exact hne hc.symm
  induction m with
  | nil => simp [setAttempts, getAttempts, hcn]
  | cons p rest ih =>
    by_cases h : p.1 == code
    · have h1 : p.1 = code := by simpa using h
      have hpc : (p.1 == c) = false := by rw [h1]; exact hcn
      simp [setAttempts, getAttempts, h, hcn, hpc]
    · by_cases hpc : p.1 == c
      · simp [setAttempts, getAttempts, h, hpc]
      · simp only [setAttempts, h, if_neg]
        simpa [getAttempts, hpc] using ih

/-- The attempt map produced by `attemptRecovery`: unchanged at the cap,
incremented below it, in every recovery branch. -/
theorem attemptRecovery_snd (m : List (String × Nat)) (e : ExtractionError) :
    (attemptRecovery m e).2.1 =
      if 3 ≤ getAttempts m e.code then m
      else setAttempts m e.code (getAttempts m e.code + 1) := by
  unfold attemptRecovery
  by_cases h : getAttempts m e.code ≥ 3
  · simp [h]
  · simp only [h, ge_iff_le, if_neg, ite_false]
    cases e.kind <;> simp [h] <;> split <;> rfl

/-- At the cap, `attemptRecovery` refuses regardless of the error. -/
theorem attemptRecovery_false_of_ge (m : List (String × Nat)) (e : ExtractionError)
    (h : 3 ≤ getAttempts m e.code) :
    (attemptRecovery m e).1 = false := by
  unfold attemptRecovery
  simp [h]

/-- `handle` returns `recovered = false` whenever the error's code has
already used up its 3 recovery attempts — whatever the kind and the
`recoverable` flag. -/
theorem handle_recovered_false_of_ge (st : State) (err : JSError)
    (h : 3 ≤ getAttempts st.recoveryAttempts (normalizeError err).code) :
    ((handle st err).1).recovered = false := by
  unfold handle
  by_cases hr : (normalizeError err).recoverable
  · simp [hr, attemptRecovery_false_of_ge _ _ h]
  · simp [hr]

/-- How one `handle` call changes one code's attempt counter. -/
theorem getAttempts_handle (st : State) (err : JSError) (c : String) :
    getAttempts (handle st err).2.recoveryAttempts c =
      if (normalizeError err).recoverable = true
          ∧ (normalizeError err).code = c
          ∧ getAttempts st.recoveryAttempts c < 3 then
        getAttempts st.recoveryAttempts c + 1
      else getAttempts st.recoveryAttempts c := by
  unfold handle
  by_cases hr : (normalizeError err).recoverable
  · simp only [hr, if_true, true_and]
    rw [attemptRecovery_snd]
    by_cases hcode : (normalizeError err).code = c
    · subst hcode
      by_cases hlt : getAttempts st.recoveryAttempts (normalizeError err).code < 3
      · have : ¬ 3 ≤ getAttempts st.recoveryAttempts (normalizeError err).code :=
          Nat.not_le.mpr hlt
        simp [this, hlt, getAttempts_set_self]
      · have : 3 ≤ getAttempts st.recoveryAttempts (normalizeError err).code :=
          Nat.le_of_not_lt hlt
        simp [this, hlt]
    · have hne : ((c == (normalizeError err).code) = false) := by
        simp only [beq_eq_false_iff_ne, ne_eq]
        intro hc
        exact hcode hc.symm
      by_cases hge : 3 ≤ getAttempts st.recoveryAttempts (normalizeError err).code
      · simp [hge, hcode]
      · simp [hge, hcode, getAttempts_set_other _ _ _ _ hne]
  · simp [hr]

/-- A `handle` call never decreases an attempt counter. -/
theorem getAttempts_handle_le (st : State) (err : JSError) (c : String) :
    getAttempts st.recoveryAttempts c ≤ getAttempts (handle st err).2.recoveryAttempts c := by
  rw [getAttempts_handle]
  split
  · exact Nat.le_succ _
  · exact Nat.le_refl _

/-- A `handle` call keeps every attempt counter at or below the cap. -/
theorem getAttempts_handle_cap (st : State) (err : JSError) (c : String)
    (h : getAttempts st.recoveryAttempts c ≤ 3) :
    getAttempts (handle st err).2.recoveryAttempts c ≤ 3 := by
  rw [getAttempts_handle]
  split
  · rename_i hcond
    exact hcond.2.2
  · exact h

/-- Over any run, every attempt counter stays at or below the cap. -/
theorem run_cap (errs : List JSError) :
    ∀ (st : State), (∀ c, getAttempts st.recoveryAttempts c ≤ 3) →
      ∀ c, getAttempts (run st errs).2.recoveryAttempts c ≤ 3 := by
  induction errs with
  | nil => intro st h c; exact h c
  | cons e rest ih =>
    intro st h c
    exact ih (handle st e).2 (fun c0 => getAttempts_handle_cap st e c0 (h c0)) c

/-- `run` produces one result per input error. -/
theorem run_length (st : State) (errs : List JSError) :
    (run st errs).1.length = errs.length := by
  induction errs generalizing st with
  | nil => rfl
  | cons e rest ih => simpa [run] using ih (handle st e).2

/-- If the code-X errors of a run are all recoverable, the result at any
index `i` with `count₀ + i ≥ 3` has `recovered = false`. -/
theorem run_recovered_false (X : String) (errs : List JSError) :
    ∀ (st : State) (i : Nat) (h : i < (run st errs).1.length),
      (∀ e ∈ errs, (normalizeError e).code = X ∧ (normalizeError e).recoverable = true) →
      3 ≤ getAttempts st.recoveryAttempts X + i →
      ((run st errs).1.get ⟨i, h⟩).recovered = false := by
  induction errs with
  | nil =>
    intro st i h
    simp [run] at h
  | cons e rest ih =>
    intro st i h hall hge
    have he : (normalizeError e).code = X ∧ (normalizeError e).recoverable = true :=
      hall e (List.mem_cons_self e rest)
    match i with
    | 0 =>
      have hge0 : 3 ≤ getAttempts st.recoveryAttempts (normalizeError e).code := by
        rw [he.1]
        simpa using hge
      show ((handle st e).1).recovered = false
      exact handle_recovered_false_of_ge st e hge0
    | Nat.succ j =>
      have hrest : ∀ e0 ∈ rest,
          (normalizeError e0).code = X ∧ (normalizeError e0).recoverable = true :=
        fun e0 he0 => hall e0 (List.mem_cons_of_mem e he0)
      have hj : j < (run (handle st e).2 rest).1.length := by
        have := h
        simpa [run, Nat.succ_lt_succ_iff] using this
      have hge' : 3 ≤ getAttempts (handle st e).2.recoveryAttempts X + j := by
        rw [getAttempts_handle]
        by_cases hcond : (normalizeError e).recoverable = true
            ∧ (normalizeError e).code = X ∧ getAttempts st.recoveryAttempts X < 3
        · rw [if_pos hcond]
          omega
        · rw [if_neg hcond]
          rcases Nat.lt_or_ge (getAttempts st.recoveryAttempts X) 3 with hlt | hge3
          · exact absurd ⟨he.2, he.1, hlt⟩ hcond
          · omega
      show ((run (handle st e).2 rest).1.get ⟨j, hj⟩).recovered = false
      exact ih (handle st e).2 j hj hrest hge'

end ErrorHandler

/-- C2 (amended): per error code, at most 3 recovery attempts are ever
recorded in one run; once a code's recorded attempts reach 3, every
later `handle()` call with that code yields `recovered = false`
regardless of the error's kind or `recoverable` flag; and when every
handled error of code X is recoverable — only such calls record
attempts — the 4th and every later call with code X yields
`recovered = false`. -/
theorem claim2_amended_recovery_cap :
    (∀ (errs : List JSError) (c : String),
        ErrorHandler.getAttempts
          (ErrorHandler.run ErrorHandler.initialState errs).2.recoveryAttempts c ≤ 3)
    ∧ (∀ (st : ErrorHandler.State) (err : JSError),
        3 ≤ ErrorHandler.getAttempts st.recoveryAttempts
              (ErrorHandler.normalizeError err).code →
        ((ErrorHandler.handle st err).1).recovered = false)
    ∧ (∀ (X : String) (errs : List JSError) (i : Nat)
        (h : i < (ErrorHandler.run ErrorHandler.initialState errs).1.length),
        (∀ e ∈ errs, (ErrorHandler.normalizeError e).code = X ∧
          (ErrorHandler.normalizeError e).recoverable = true) →
        3 ≤ i →
        ((ErrorHandler.run ErrorHandler.initialState errs).1.get ⟨i, h⟩).recovered = false) := by
  refine ⟨?_, ?_, ?_⟩
  · intro errs c
    exact ErrorHandler.run_cap errs ErrorHandler.initialState
      (fun c0 => by simp [ErrorHandler.initialState, ErrorHandler.getAttempts]) c
  · intro st err h
    exact ErrorHandler.handle_recovered_false_of_ge st err h
  · intro X errs i h hall hge
    exact ErrorHandler.run_recovered_false X errs ErrorHandler.initialState i h hall
      (by simpa [ErrorHandler.initialState, ErrorHandler.getAttempts] using hge)

/-- C2 witness: four recoverable `ImageDownloadError`s of one code; the
4th result (index 3) has `recovered = false`. -/
theorem claim2_witness :
    3 ≤ (3 : Nat) ∧
    ((ErrorHandler.run ErrorHandler.initialState
        (List.replicate 4
          (JSError.extraction (mkImageDownloadError "https://example.com/img.jpg" none)))).1.get
      ⟨3, by decide⟩).recovered = false :=
  ⟨by decide,
   claim2_amended_recovery_cap.2.2 "IMAGE_DOWNLOAD_FAILED"
     (List.replicate 4 (JSError.extraction (mkImageDownloadError "https://example.com/img.jpg" none)))
     3 (by decide) (by decide) (by decide)⟩

/-- C5 (counterexample): with cached inventory `["llama3.1:latest"]` and
preference list `["llama3.1"]`, `selectBestModel` returns the preference
entry `"llama3.1"` itself, which is not a name present in the inventory —
the claim's invariant "the returned value is always a name present in
the inventory" fails. -/
theorem claim5_counterexample :
    OllamaClient.selectBestModel
        (Except.ok [{ name := "llama3.1:latest", size := 42, digest := "d", modifiedAt := "t" }])
        ["llama3.1"] = some "llama3.1"
    ∧ ¬ ("llama3.1" ∈
        ([{ name := "llama3.1:latest", size := 42, digest := "d", modifiedAt := "t" }] :
          List OllamaModelInfo).map (fun m => m.name)) := by
  exact ⟨by rfl, by decide⟩

namespace OllamaClient

/-- With an empty inventory no preference entry can match. -/
theorem firstPreferred_nil (prefs : List String) :
    firstPreferred [] prefs = none := by
  induction prefs with
  | nil => rfl
  | cons p rest ih => simpa [firstPreferred] using ih

/-- The loop returns the first preference entry that matches. -/
theorem firstPreferred_first (names : List String) (p : String) :
    ∀ (pre post : List String),
      (∀ q ∈ pre, names.any (fun name => jsIncludes name q) = false) →
      names.any (fun name => jsIncludes name p) = true →
      firstPreferred names (pre ++ p :: post) = some p := by
  intro pre
  induction pre with
  | nil =>
    intro post _ hp
    simp [firstPreferred, hp]
  | cons q rest ih =>
    intro post hpre hp
    have hq : names.any (fun name => jsIncludes name q) = false :=
      hpre q (List.mem_cons_self q rest)
    have hrest : ∀ q0 ∈ rest, names.any (fun name => jsIncludes name q0) = false :=
      fun q0 hq0 => hpre q0 (List.mem_cons_of_mem q hq0)
    simpa [firstPreferred, hq] using ih post hrest hp

/-- If no preference entry matches, the loop returns none. -/
theorem firstPreferred_none (names : List String) :
    ∀ (prefs : List String),
      (∀ q ∈ prefs, names.any (fun name => jsIncludes name q) = false) →
      firstPreferred names prefs = none := by
  intro prefs
  induction prefs with
  | nil => intro _; rfl
  | cons q rest ih =>
    intro h
    have hq : names.any (fun name => jsIncludes name q) = false :=
      h q (List.mem_cons_self q rest)
    have hrest : ∀ q0 ∈ rest, names.any (fun name => jsIncludes name q0) = false :=
      fun q0 hq0 => h q0 (List.mem_cons_of_mem q hq0)
    simpa [firstPreferred, hq] using ih hrest

/-- A returned preference entry substring-matches some inventory name. -/
theorem firstPreferred_some_match (names : List String) :
    ∀ (prefs : List String) (p : String),
      firstPreferred names prefs = some p →
      names.any (fun name => jsIncludes name p) = true := by
  intro prefs
  induction prefs with
  | nil => intro p h; exact absurd h (by simp [firstPreferred])
  | cons q rest ih =>
    intro p h
    by_cases hq : names.any (fun name => jsIncludes name q) = true
    · have : some q = some p := by simpa [firstPreferred, hq] using h
      obtain rfl : q = p := by injection this
      exact hq
    · have hq' : names.any (fun name => jsIncludes name q) = false :=
        Bool.eq_false_iff.mpr hq
      exact ih p (by simpa [firstPreferred, hq'] using h)

end OllamaClient

/-- C5 (amended): `selectBestModel` returns none on an empty cached
inventory; with a non-empty inventory it returns the first preference
entry that substring-matches an inventory name, or else the first
available model name provided that name is non-empty (an empty name is
JS-falsy and yields none); and every returned value is a substring of
some inventory model name — when a preference entry wins it need not
itself be a name present in the inventory. -/
theorem claim5_amended_selectBestModel :
    (∀ prefs, OllamaClient.selectBestModel (Except.ok []) prefs = none)
    ∧ (∀ (models : List OllamaModelInfo) (pre post : List String) (p : String),
        (∀ q ∈ pre,
          (models.map (fun m => m.name)).any (fun name => jsIncludes name q) = false) →
        (models.map (fun m => m.name)).any (fun name => jsIncludes name p) = true →
        OllamaClient.selectBestModel (Except.ok models) (pre ++ p :: post) = some p)
    ∧ (∀ (models : List OllamaModelInfo) (prefs : List String) (info : OllamaModelInfo)
        (rest : List OllamaModelInfo),
        (∀ q ∈ prefs,
          (models.map (fun m => m.name)).any (fun name => jsIncludes name q) = false) →
        models = info :: rest →
        info.name ≠ "" →
        OllamaClient.selectBestModel (Except.ok models) prefs = some info.name)
    ∧ (∀ (models : List OllamaModelInfo) (prefs : List String) (m : String),
        OllamaClient.selectBestModel (Except.ok models) prefs = some m →
        ∃ info ∈ models, m.toList <:+: info.name.toList) := by
  refine ⟨?_, ?_, ?_, ?_⟩
  · intro prefs
    simp [OllamaClient.selectBestModel, OllamaClient.getAvailableModels,
      OllamaClient.firstPreferred_nil]
  · intro models pre post p hpre hp
    simp only [OllamaClient.selectBestModel, OllamaClient.getAvailableModels]
    rw [OllamaClient.firstPreferred_first (models.map (fun m => m.name)) p pre post hpre hp]
  · intro models prefs info rest hnone hmodels hname
    simp only [OllamaClient.selectBestModel, OllamaClient.getAvailableModels]
    rw [OllamaClient.firstPreferred_none (models.map (fun m => m.name)) prefs hnone]
    subst hmodels
    simp [hname]
  · intro models prefs m hsel
    simp only [OllamaClient.selectBestModel, OllamaClient.getAvailableModels] at hsel
    rcases hfp : OllamaClient.firstPreferred (models.map (fun mi => mi.name)) prefs with _ | p
    · rw [hfp] at hsel
      rcases hhead : (models.map (fun mi => mi.name)).head? with _ | n
      · rw [hhead] at hsel
        exact absurd hsel (by simp)
      · rw [hhead] at hsel
        by_cases hn : n = ""
        · simp [hn] at hsel
        · simp only [hn, if_false, ite_false] at hsel
          have hnm : n = m := by
            by_cases h : n = ""
            · exact absurd h hn
            · simpa [h] using hsel
          subst hnm
          have hmem : n ∈ models.map (fun mi => mi.name) :=
            List.mem_of_mem_head? hhead
          obtain ⟨info, hinfo, heq⟩ := List.mem_map.mp hmem
          exact ⟨info, hinfo, by rw [heq]⟩
    · rw [hfp] at hsel
      obtain rfl : p = m := by injection hsel
      have hany := OllamaClient.firstPreferred_some_match _ prefs p hfp
      obtain ⟨name, hnmem, hinc⟩ := List.any_eq_true.mp hany
      obtain ⟨info, hinfo, heq⟩ := List.mem_map.mp hnmem
      exact ⟨info, hinfo, by rw [heq]; exact (jsIncludes_iff name p).mp hinc⟩

/-- C5 witness: concrete inventory and a two-entry preference list whose
first entry does not match; the second, matching entry is returned. -/
theorem claim5_witness :
    (([{ name := "mistral:7b", size := 1, digest := "d", modifiedAt := "t" }] :
        List OllamaModelInfo).map (fun m => m.name)).any
      (fun name => jsIncludes name "mistral") = true ∧
    OllamaClient.selectBestModel
      (Except.ok [{ name := "mistral:7b", size := 1, digest := "d", modifiedAt := "t" }])
      ["llama3.1", "mistral"] = some "mistral" :=
  ⟨by decide,
   claim5_amended_selectBestModel.2.1
     [{ name := "mistral:7b", size := 1, digest := "d", modifiedAt := "t" }]
     ["llama3.1"] [] "mistral" (by decide) (by decide)⟩

namespace OllamaClient

/-- A successful `generateSummary` result carries the requested model's
name. -/
theorem generateSummary_model (fetch : Except String (List OllamaModelInfo))
    (baseUrl : String) (genOutcome : String → Except String String) (model : String)
    (r : SummarizationResult)
    (h : generateSummary fetch baseUrl genOutcome model = Except.ok r) :
    r.model = model := by
  unfold generateSummary at h
  rcases hg : genOutcome model with s | s
  · rw [hg] at h
    exact absurd h (by simp)
  · rw [hg] at h
    by_cases hs : s = ""
    · simp [hs] at h
    · simp only [hs, ite_false, if_false] at h
      have : ({ summary := s.trim, model := model } : SummarizationResult) = r := by
        by_cases h0 : s = ""
        · exact absurd h0 hs
        · simpa [h0] using h
      rw [← this]

/-- The fallback loop returns the first available-and-successful
candidate's result. -/
theorem fallbackLoop_first_success (fetch : Except String (List OllamaModelInfo))
    (baseUrl : String) (genOutcome : String → Except String String)
    (m : String) (r : SummarizationResult) :
    ∀ (pre post : List String) (acc : Option String),
      (∀ m0 ∈ pre, hasModel fetch m0 = false ∨
        ∃ e, generateSummary fetch baseUrl genOutcome m0 = Except.error e) →
      hasModel fetch m = true →
      generateSummary fetch baseUrl genOutcome m = Except.ok r →
      fallbackLoop fetch baseUrl genOutcome (pre ++ m :: post) acc = Except.ok r := by
  intro pre
  induction pre with
  | nil =>
    intro post acc _ hm hok
    simp [fallbackLoop, hm, hok]
  | cons q rest ih =>
    intro post acc hpre hm hok
    have hq : hasModel fetch q = false ∨
        ∃ e, generateSummary fetch baseUrl genOutcome q = Except.error e :=
      hpre q (List.mem_cons_self q rest)
    have hrest : ∀ m0 ∈ rest, hasModel fetch m0 = false ∨
        ∃ e, generateSummary fetch baseUrl genOutcome m0 = Except.error e :=
      fun m0 hm0 => hpre m0 (List.mem_cons_of_mem q hm0)
    rcases hq with hq | ⟨e, he⟩
    · simpa [fallbackLoop, hq] using ih post acc hrest hm hok
    · by_cases hqa : hasModel fetch q = true
      · simpa [fallbackLoop, hqa, he] using ih post (some e) hrest hm hok
      · have hq' : hasModel fetch q = false := Bool.eq_false_iff.mpr hqa
        simpa [fallbackLoop, hq'] using ih post acc hrest hm hok

/-- When every candidate is unavailable or fails, the loop produces the
aggregate error built from the accumulated last failure. -/
theorem fallbackLoop_all_fail (fetch : Except String (List OllamaModelInfo))
    (baseUrl : String) (genOutcome : String → Except String String) :
    ∀ (models : List String) (acc : Option String),
      (∀ m ∈ models, hasModel fetch m = false ∨
        ∃ e, generateSummary fetch baseUrl genOutcome m = Except.error e) →
      fallbackLoop fetch baseUrl genOutcome models acc =
        Except.error ("All summarization models failed. Last error: " ++
          (match models.foldl (lastFailureStep fetch baseUrl genOutcome) acc with
           | some msg => if msg = "" then "Unknown error" else msg
           | none => "Unknown error")) := by
  intro models
  induction models with
  | nil => intro acc _; rfl
  | cons m rest ih =>
    intro acc hall
    have hm : hasModel fetch m = false ∨
        ∃ e, generateSummary fetch baseUrl genOutcome m = Except.error e :=
      hall m (List.mem_cons_self m rest)
    have hrest : ∀ m0 ∈ rest, hasModel fetch m0 = false ∨
        ∃ e, generateSummary fetch baseUrl genOutcome m0 = Except.error e :=
      fun m0 hm0 => hall m0 (List.mem_cons_of_mem m hm0)
    rcases hm with hm | ⟨e, he⟩
    · rw [List.foldl_cons]
      have hstep : lastFailureStep fetch baseUrl genOutcome acc m = acc := by
        simp [lastFailureStep, hm]
      rw [hstep]
      simpa [fallbackLoop, hm] using ih acc hrest
    · by_cases hma : hasModel fetch m = true
      · rw [List.foldl_cons]
        have hstep : lastFailureStep fetch baseUrl genOutcome acc m = some e := by
          simp [lastFailureStep, hma, he]
        rw [hstep]
        simpa [fallbackLoop, hma, he] using ih (some e) hrest
      · have hm' : hasModel fetch m = false := Bool.eq_false_iff.mpr hma
        rw [List.foldl_cons]
        have hstep : lastFailureStep fetch baseUrl genOutcome acc m = acc := by
          simp [lastFailureStep, hm']
        rw [hstep]
        simpa [fallbackLoop, hm'] using ih acc hrest

end OllamaClient

/-- C4: `generateSummaryWithFallback` tries `[primary, ...fallbacks]`
strictly in order, silently skipping candidates absent from the
inventory, and returns the result of the first candidate whose
generation succeeds, carrying that model's name; if every candidate is
unavailable or fails it fails with the aggregate
`All summarization models failed` error whose message carries the last
underlying error's message (`Unknown error` when no candidate even got
to fail). -/
theorem claim4_generateSummaryWithFallback
    (fetch : Except String (List OllamaModelInfo)) (baseUrl : String)
    (genOutcome : String → Except String String)
    (primary : String) (fallbacks : List String) :
    (∀ (pre post : List String) (m : String) (r : SummarizationResult),
      primary :: fallbacks = pre ++ m :: post →
      (∀ m0 ∈ pre, OllamaClient.hasModel fetch m0 = false ∨
        ∃ e, OllamaClient.generateSummary fetch baseUrl genOutcome m0 = Except.error e) →
      OllamaClient.hasModel fetch m = true →
      OllamaClient.generateSummary fetch baseUrl genOutcome m = Except.ok r →
      OllamaClient.generateSummaryWithFallback fetch baseUrl genOutcome primary fallbacks =
          Except.ok r
        ∧ r.model = m)
    ∧ ((∀ m ∈ primary :: fallbacks, OllamaClient.hasModel fetch m = false ∨
          ∃ e, OllamaClient.generateSummary fetch baseUrl genOutcome m = Except.error e) →
        OllamaClient.generateSummaryWithFallback fetch baseUrl genOutcome primary fallbacks =
          Except.error ("All summarization models failed. Last error: " ++
            (match OllamaClient.lastFailure fetch baseUrl genOutcome (primary :: fallbacks) with
             | some msg => if msg = "" then "Unknown error" else msg
             | none => "Unknown error"))) := by
  constructor
  · intro pre post m r hsplit hpre hm hok
    refine ⟨?_, OllamaClient.generateSummary_model fetch baseUrl genOutcome m r hok⟩
    unfold OllamaClient.generateSummaryWithFallback
    rw [hsplit]
    exact OllamaClient.fallbackLoop_first_success fetch baseUrl genOutcome m r pre post none
      hpre hm hok
  · intro hall
    unfold OllamaClient.generateSummaryWithFallback OllamaClient.lastFailure
    exact OllamaClient.fallbackLoop_all_fail fetch baseUrl genOutcome (primary :: fallbacks)
      none hall

/-- C4 witness: primary `llama3.1` absent from the inventory, fallback
`mistral` present and succeeding: the fallback's result is returned,
with `model = "mistral"`. -/
theorem claim4_witness :
    OllamaClient.hasModel
        (Except.ok [{ name := "mistral:7b", size := 1, digest := "d", modifiedAt := "t" }])
        "mistral" = true ∧
    OllamaClient.generateSummaryWithFallback
        (Except.ok [{ name := "mistral:7b", size := 1, digest := "d", modifiedAt := "t" }])
        "http://localhost:11434"
        (fun model => if model == "mistral" then Except.ok "A summary." else Except.error "boom")
        "llama3.1" ["mistral"] =
      Except.ok { summary := "A summary.".trim, model := "mistral" } :=
  ⟨by decide,
   ((claim4_generateSummaryWithFallback
      (Except.ok [{ name := "mistral:7b", size := 1, digest := "d", modifiedAt := "t" }])
      "http://localhost:11434"
      (fun model => if model == "mistral" then Except.ok "A summary." else Except.error "boom")
      "llama3.1" ["mistral"]).1
     ["llama3.1"] [] "mistral" { summary := "A summary.".trim, model := "mistral" }
     rfl
     (by
       intro m0 hm0
       have : m0 = "llama3.1" := by simpa using hm0
       subst this
       exact Or.inl (by decide))
     (by decide) (by rfl)).1⟩

namespace ImageDownloader

/-- Sequential restatement of the batched loop: processing the settled
results batch by batch is folding `dedupStep` over the images one at a
time, in input order. -/
def processFold (env : ImageEnv) (outputDir : String) :
    List (Nat × Image) → List String × List LocalImage → List String × List LocalImage
  | [], acc => acc
  | p :: rest, acc =>
    processFold env outputDir rest (dedupStep acc (settle (processImage env p.2 p.1 outputDir)))

/-- Folding `dedupStep` over one settled batch is `processFold` on it. -/
theorem foldl_settled (env : ImageEnv) (outputDir : String) (batch : List (Nat × Image)) :
    ∀ acc, (batch.map (fun p => settle (processImage env p.2 p.1 outputDir))).foldl
        dedupStep acc = processFold env outputDir batch acc := by
  induction batch with
  | nil => intro acc; rfl
  | cons p rest ih => intro acc; simpa [processFold] using ih _

/-- `processFold` over a concatenation splits into two passes. -/
theorem processFold_append (env : ImageEnv) (outputDir : String)
    (l1 l2 : List (Nat × Image)) :
    ∀ acc, processFold env outputDir (l1 ++ l2) acc =
      processFold env outputDir l2 (processFold env outputDir l1 acc) := by
  induction l1 with
  | nil => intro acc; rfl
  | cons p rest ih => intro acc; simpa [processFold] using ih _

/-- The batched loop computes exactly the sequential fold: batching by
`take`/`drop` preserves the overall input-order traversal. -/
theorem downloadImagesLoop_eq_processFold (env : ImageEnv) (outputDir : String)
    (maxConcurrent : Nat) (hmc : maxConcurrent ≠ 0) :
    ∀ (n : Nat) (rest : List (Nat × Image)), rest.length ≤ n →
      ∀ (hashes : List String) (results : List LocalImage),
        downloadImagesLoop env outputDir maxConcurrent rest hashes results =
          (processFold env outputDir rest (hashes, results)).2 := by
  intro n
  induction n with
  | zero =>
    intro rest hlen hashes results
    have hnil : rest = [] := List.eq_nil_of_length_eq_zero (Nat.le_zero.mp hlen)
    subst hnil
    rw [downloadImagesLoop]
    simp [processFold]
  | succ n ih =>
    intro rest hlen hashes results
    by_cases hrest : rest = []
    · subst hrest
      rw [downloadImagesLoop]
      simp [processFold]
    · rw [downloadImagesLoop, if_neg hrest, if_neg hmc]
      simp only []
      rw [foldl_settled]
      have hlen' : (rest.drop maxConcurrent).length ≤ n := by
        rw [List.length_drop]
        have hpos : 0 < rest.length := by
          cases rest with
          | nil => exact absurd rfl hrest
          | cons a l => exact Nat.succ_pos _
        omega
      rw [ih (rest.drop maxConcurrent) hlen']
      rw [← processFold_append]
      rw [List.take_append_drop]

/-- The dedup fold keeps the output hashes duplicate-free, given that
the accumulated results' hashes are duplicate-free and all recorded in
the seen-set. -/
theorem processFold_nodup (env : ImageEnv) (outputDir : String) :
    ∀ (l : List (Nat × Image)) (hashes : List String) (results : List LocalImage),
      (results.map (fun li => li.hash)).Nodup →
      (∀ li ∈ results, li.hash ∈ hashes) →
      (((processFold env outputDir l (hashes, results)).2.map (fun li => li.hash))).Nodup := by
  intro l
  induction l with
  | nil => intro hashes results h1 _; exact h1
  | cons p rest ih =>
    intro hashes results h1 h2
    show (((processFold env outputDir rest
        (dedupStep (hashes, results) (settle (processImage env p.2 p.1 outputDir)))).2.map
      (fun li => li.hash))).Nodup
    cases hs : settle (processImage env p.2 p.1 outputDir) with
    | none =>
      exact ih hashes results h1 h2
    | some li =>
      by_cases hmem : (hashes.contains li.hash) = true
      · have hm : li.hash ∈ hashes := by simpa using hmem
        have hd : dedupStep (hashes, results) (some li) = (hashes, results) := by
          simp [dedupStep, hm]
        rw [hd]
        exact ih hashes results h1 h2
      · have hm : li.hash ∉ hashes := by simpa using hmem
        have hd : dedupStep (hashes, results) (some li) =
            (li.hash :: hashes, results ++ [li]) := by
          simp [dedupStep, hm]
        rw [hd]
        apply ih (li.hash :: hashes) (results ++ [li])
        · rw [List.map_append]
          rw [List.nodup_append]
          refine ⟨h1, List.nodup_singleton _, ?_⟩
          intro a ha hb
          have hah : a = li.hash := by simpa using hb
          subst hah
          obtain ⟨x, hx, hxh⟩ := List.mem_map.mp ha
          exact hm (hxh ▸ h2 x hx)
        · intro x hx
          rcases List.mem_append.mp hx with hx | hx
          · exact List.mem_cons_of_mem _ (h2 x hx)
          · have : x = li := by simpa using hx
            subst this
            exact List.mem_cons_self _ _

/-- The dedup fold appends, in order, a sublist of the fulfilled results. -/
theorem processFold_sublist (env : ImageEnv) (outputDir : String) :
    ∀ (l : List (Nat × Image)) (hashes : List String) (results : List LocalImage),
      ∃ t, (processFold env outputDir l (hashes, results)).2 = results ++ t
        ∧ t.Sublist (l.filterMap (fun p => settle (processImage env p.2 p.1 outputDir))) := by
  intro l
  induction l with
  | nil =>
    intro hashes results
    exact ⟨[], by simp [processFold], by simp⟩
  | cons p rest ih =>
    intro hashes results
    have hshow : ∀ acc, processFold env outputDir (p :: rest) acc =
        processFold env outputDir rest
          (dedupStep acc (settle (processImage env p.2 p.1 outputDir))) :=
      fun _ => rfl
    cases hs : settle (processImage env p.2 p.1 outputDir) with
    | none =>
      obtain ⟨t, h1, h2⟩ := ih hashes results
      refine ⟨t, ?_, ?_⟩
      · rw [hshow, hs]
        exact h1
      · rw [List.filterMap_cons, hs]
        exact h2
    | some li =>
      by_cases hmem : (hashes.contains li.hash) = true
      · obtain ⟨t, h1, h2⟩ := ih hashes results
        have hm : li.hash ∈ hashes := by simpa using hmem
        have hd : dedupStep (hashes, results) (some li) = (hashes, results) := by
          simp [dedupStep, hm]
        refine ⟨t, ?_, ?_⟩
        · rw [hshow, hs, hd]
          exact h1
        · rw [List.filterMap_cons, hs]
          exact h2.cons li
      · obtain ⟨t, h1, h2⟩ := ih (li.hash :: hashes) (results ++ [li])
        have hm : li.hash ∉ hashes := by simpa using hmem
        have hd : dedupStep (hashes, results) (some li) =
            (li.hash :: hashes, results ++ [li]) := by
          simp [dedupStep, hm]
        refine ⟨li :: t, ?_, ?_⟩
        · rw [hshow, hs, hd, h1]
          simp
        · rw [List.filterMap_cons, hs]
          exact h2.cons₂ li

/-- A settled promise is a value exactly for a fulfilled `processImage`. -/
theorem settle_eq_some (e : Except String LocalImage) (li : LocalImage) :
    settle e = some li ↔ e = Except.ok li := by
  cases e <;> simp [settle, Except.toOption]

end ImageDownloader

/-- C6: one run of `downloadImages` never returns two `LocalImage`s with
the same content hash: a later image whose hash equals that of an
earlier kept image is discarded. -/
theorem claim6_downloadImages_nodup_hashes (env : ImageEnv) (images : List Image)
    (outputDir : String) (maxConcurrent : Nat) (h : 0 < maxConcurrent) :
    ((ImageDownloader.downloadImages env images outputDir maxConcurrent).map
      (fun li => li.hash)).Nodup := by
  unfold ImageDownloader.downloadImages
  rw [ImageDownloader.downloadImagesLoop_eq_processFold env outputDir maxConcurrent
    (Nat.pos_iff_ne_zero.mp h) images.enum.length images.enum (Nat.le_refl _) [] []]
  exact ImageDownloader.processFold_nodup env outputDir images.enum [] []
    (by simp) (by simp)

/-- C6 witness: two distinct URLs downloading identical bytes (same
hash); the deduplicated result's hash list is duplicate-free. -/
theorem claim6_witness :
    0 < 2 ∧
    ((ImageDownloader.downloadImages
        { download := fun _ => Except.ok [7]
        , sha256 := fun _ => "deadbeef"
        , optimize := fun _ => Except.ok (1, 1)
        , filename := fun _ i => toString i }
        [{ src := "https://a/1.jpg", alt := none, title := none, srcset := none,
           isFeatureImage := false },
         { src := "https://a/2.jpg", alt := none, title := none, srcset := none,
           isFeatureImage := false }]
        "out" 2).map (fun li => li.hash)).Nodup :=
  ⟨by decide,
   claim6_downloadImages_nodup_hashes
     { download := fun _ => Except.ok [7]
     , sha256 := fun _ => "deadbeef"
     , optimize := fun _ => Except.ok (1, 1)
     , filename := fun _ i => toString i }
     [{ src := "https://a/1.jpg", alt := none, title := none, srcset := none,
        isFeatureImage := false },
      { src := "https://a/2.jpg", alt := none, title := none, srcset := none,
        isFeatureImage := false }]
     "out" 2 (by decide)⟩

/-- C7: `downloadImages` (the spec's `acquire`) absorbs every individual
failure — it always returns a list (the embedding is a total function,
mirroring the source whose per-image rejections are all captured by
`Promise.allSettled`), failed images are excluded from the result rather
than raised, the kept images appear in input (discovery) order (the
result is a sublist of the fulfilled results in input order), and even
when every image fails the function returns the empty list. -/
theorem claim7_downloadImages_graceful (env : ImageEnv) (images : List Image)
    (outputDir : String) (maxConcurrent : Nat) (h : 0 < maxConcurrent) :
    (ImageDownloader.downloadImages env images outputDir maxConcurrent).Sublist
        (images.enum.filterMap
          (fun p => ImageDownloader.settle (ImageDownloader.processImage env p.2 p.1 outputDir)))
    ∧ (∀ li ∈ ImageDownloader.downloadImages env images outputDir maxConcurrent,
        ∃ p ∈ images.enum, ImageDownloader.processImage env p.2 p.1 outputDir = Except.ok li)
    ∧ ((∀ p ∈ images.enum,
          ImageDownloader.settle (ImageDownloader.processImage env p.2 p.1 outputDir) = none) →
        ImageDownloader.downloadImages env images outputDir maxConcurrent = []) := by
  have hmain : (ImageDownloader.downloadImages env images outputDir maxConcurrent).Sublist
      (images.enum.filterMap
        (fun p => ImageDownloader.settle (ImageDownloader.processImage env p.2 p.1 outputDir))) := by
    unfold ImageDownloader.downloadImages
    rw [ImageDownloader.downloadImagesLoop_eq_processFold env outputDir maxConcurrent
      (Nat.pos_iff_ne_zero.mp h) images.enum.length images.enum (Nat.le_refl _) [] []]
    obtain ⟨t, h1, h2⟩ := ImageDownloader.processFold_sublist env outputDir images.enum [] []
    rw [h1]
    simpa using h2
  refine ⟨hmain, ?_, ?_⟩
  · intro li hli
    have hmem := hmain.subset hli
    obtain ⟨p, hp, hsome⟩ := List.mem_filterMap.mp hmem
    exact ⟨p, hp, (ImageDownloader.settle_eq_some _ _).mp hsome⟩
  · intro hall
    have hnil : images.enum.filterMap
        (fun p => ImageDownloader.settle (ImageDownloader.processImage env p.2 p.1 outputDir))
          = [] :=
      List.filterMap_eq_nil_iff.mpr hall
    have := hmain
    rw [hnil] at this
    exact List.sublist_nil.mp this

/-- C7 witness: one failing and one succeeding image; the theorem's
order/exclusion facts hold at this input. -/
theorem claim7_witness :
    0 < 3 ∧
    (∀ li ∈ ImageDownloader.downloadImages
        { download := fun u => if u == "https://a/bad.jpg" then Except.error "404" else Except.ok [7]
        , sha256 := fun _ => "deadbeef"
        , optimize := fun _ => Except.ok (1, 1)
        , filename := fun _ i => toString i }
        [{ src := "https://a/bad.jpg", alt := none, title := none, srcset := none,
           isFeatureImage := false },
         { src := "https://a/ok.jpg", alt := none, title := none, srcset := none,
           isFeatureImage := false }]
        "out" 3,
      ∃ p ∈ ([{ src := "https://a/bad.jpg", alt := none, title := none, srcset := none,
                isFeatureImage := false },
              { src := "https://a/ok.jpg", alt := none, title := none, srcset := none,
                isFeatureImage := false }] : List Image).enum,
        ImageDownloader.processImage
          { download := fun u => if u == "https://a/bad.jpg" then Except.error "404" else Except.ok [7]
          , sha256 := fun _ => "deadbeef"
          , optimize := fun _ => Except.ok (1, 1)
          , filename := fun _ i => toString i }
          p.2 p.1 "out" = Except.ok li) :=
  ⟨by decide,
   (claim7_downloadImages_graceful
     { download := fun u => if u == "https://a/bad.jpg" then Except.error "404" else Except.ok [7]
     , sha256 := fun _ => "deadbeef"
     , optimize := fun _ => Except.ok (1, 1)
     , filename := fun _ i => toString i }
     [{ src := "https://a/bad.jpg", alt := none, title := none, srcset := none,
        isFeatureImage := false },
      { src := "https://a/ok.jpg", alt := none, title := none, srcset := none,
        isFeatureImage := false }]
     "out" 3 (by decide)).2.1⟩

/-- C8: `detectPaywall` classifies a loaded page as `SOFT_OVERLAY` if
and only if the rendered HTML matches the subscribe/login/paywall/
metered keyword patterns and the body text is shorter than 500
characters; in every other case it returns `NONE`; in particular a page
whose content contains `subscribe now` and whose body text has 200
characters is classified `SOFT_OVERLAY`. -/
theorem claim8_detectPaywall (content bodyText : String) :
    (BrowserEngine.detectPaywall content bodyText = PaywallType.softOverlay ↔
      (BrowserEngine.softPaywallMatch content = true ∧ bodyText.length < 500))
    ∧ (BrowserEngine.detectPaywall content bodyText = PaywallType.softOverlay ∨
        BrowserEngine.detectPaywall content bodyText = PaywallType.none)
    ∧ (("subscribe now".toList <:+: content.toList) → bodyText.length = 200 →
        BrowserEngine.detectPaywall content bodyText = PaywallType.softOverlay) := by
  have hiff : BrowserEngine.detectPaywall content bodyText = PaywallType.softOverlay ↔
      (BrowserEngine.softPaywallMatch content = true ∧ bodyText.length < 500) := by
    unfold BrowserEngine.detectPaywall
    by_cases hm : BrowserEngine.softPaywallMatch content = true
    · by_cases hl : bodyText.length < 500
      · simp [hm, hl]
      · simp [hm, hl]
    · simp [hm]
  refine ⟨hiff, ?_, ?_⟩
  · unfold BrowserEngine.detectPaywall
    by_cases hm : BrowserEngine.softPaywallMatch content = true
    · by_cases hl : bodyText.length < 500
      · exact Or.inl (by simp [hm, hl])
      · exact Or.inr (by simp [hm, hl])
    · exact Or.inr (by simp [hm])
  · intro hsub hlen
    have h0 : ("subscribe now".toList.map Char.toLower) <:+:
        (content.toList.map Char.toLower) :=
      List.IsInfix.map Char.toLower hsub
    have h1 : "subscribe".toList <+: "subscribe now".toList.map Char.toLower := by decide
    have h2 : "subscribe".toList <:+: content.toList.map Char.toLower :=
      h1.isInfix.trans h0
    have h3 : subOccurs "subscribe".toList (content.toList.map Char.toLower) = true :=
      (subOccurs_iff _ _).mpr h2
    have hm : BrowserEngine.softPaywallMatch content = true := by
      unfold BrowserEngine.softPaywallMatch
      simp only [Bool.or_eq_true]
      exact Or.inl (Or.inl (Or.inl (Or.inl h3)))
    exact hiff.mpr ⟨hm, by rw [hlen]; omega⟩

/-- C8 witness: the concrete scenario — content `subscribe now`, a
200-character body — classified `SOFT_OVERLAY`. -/
theorem claim8_witness :
    ("subscribe now".toList <:+: "subscribe now".toList) ∧
    (String.mk (List.replicate 200 'a')).length = 200 ∧
    BrowserEngine.detectPaywall "subscribe now" (String.mk (List.replicate 200 'a')) =
      PaywallType.softOverlay :=
  ⟨List.infix_rfl,
   ⟨rfl,
    (claim8_detectPaywall "subscribe now" (String.mk (List.replicate 200 'a'))).2.2
      List.infix_rfl rfl⟩⟩

/-- C9 (counterexample): the claim asserts (a) that a cookie array whose
single entry has a past expiry makes `detectExpiredCookies` return
exactly that entry, and (b) that `CookieExpiredError` carries
`recoverable = false` set at construction.  Both fail on the code: a
cookie with expiry epoch 0 — a timestamp in the past — is JS-falsy in
the filter `cookie.expires && cookie.expires < now` and is not returned;
and the `CookieExpiredError` constructor passes `recoverable = true` to
the base class. -/
theorem claim9_counterexample :
    CookieManager.detectExpiredCookies 1760140800000
        [{ name := "session", value := "v", domain := "example.com", path := none,
           secure := none, httpOnly := none, sameSite := none, expires := some 0 }] = []
    ∧ (mkCookieExpiredError (some 1)).recoverable = true := by
  exact ⟨rfl, rfl⟩

namespace ErrorHandler

/-- The cookie-expiry recovery strategy always reports failure. -/
theorem attemptRecovery_cookieExpired_false (m : List (String × Nat)) (e : ExtractionError)
    (hk : e.kind = ErrKind.cookieExpired) :
    (attemptRecovery m e).1 = false := by
  unfold attemptRecovery
  by_cases h : 3 ≤ getAttempts m e.code
  · simp [h]
  · simp [h, hk]

end ErrorHandler

/-- C9 (amended): for a cookie array in which exactly one entry has a
present, non-zero expiry timestamp in the past, `detectExpiredCookies`
returns exactly that entry (a zero expiry is JS-falsy and never counts);
the `CookieExpiredError` carries `recoverable = true` at construction,
but its recovery strategy unconditionally returns false, so cookie
expiry is never automatically recovered (`recovered = false` on every
`handle` call). -/
theorem claim9_amended_cookieExpiry :
    (∀ (now : Nat) (l1 l2 : List Cookie) (c : Cookie) (e : Nat),
      c.expires = some e → e ≠ 0 → e < now →
      (∀ x ∈ l1 ++ l2, ∀ t, x.expires = some t → t = 0 ∨ now ≤ t) →
      CookieManager.detectExpiredCookies now (l1 ++ c :: l2) = [c])
    ∧ (∀ n, (mkCookieExpiredError n).recoverable = true)
    ∧ (∀ (st : ErrorHandler.State) (n : Option Nat),
        ((ErrorHandler.handle st (JSError.extraction (mkCookieExpiredError n))).1).recovered =
          false) := by
  refine ⟨?_, fun _ => rfl, ?_⟩
  · intro now l1 l2 c e hce hne hlt hothers
    have hnotexp : ∀ x, (∀ t, x.expires = some t → t = 0 ∨ now ≤ t) →
        CookieManager.isExpired now x = false := by
      intro x hx
      unfold CookieManager.isExpired
      cases hxe : x.expires with
      | none => rfl
      | some t =>
        rcases hx t hxe with h0 | hge
        · simp [h0]
        · have hnl : ¬ t < now := Nat.not_lt.mpr hge
          by_cases h0 : t = 0
          · simp [h0]
          · simp [h0, hnl]
    have hcexp : CookieManager.isExpired now c = true := by
      unfold CookieManager.isExpired
      rw [hce]
      simp [hne, hlt]
    unfold CookieManager.detectExpiredCookies
    rw [List.filter_append]
    have hl1 : l1.filter (CookieManager.isExpired now) = [] :=
      List.filter_eq_nil_iff.mpr (fun x hx => by
        rw [hnotexp x (fun t ht => hothers x (List.mem_append_left l2 hx) t ht)]
        exact Bool.false_ne_true)
    have hl2 : l2.filter (CookieManager.isExpired now) = [] :=
      List.filter_eq_nil_iff.mpr (fun x hx => by
        rw [hnotexp x (fun t ht => hothers x (List.mem_append_right l1 hx) t ht)]
        exact Bool.false_ne_true)
    rw [hl1, List.filter_cons_of_pos hcexp, hl2]
    rfl
  · intro st n
    show (ErrorHandler.attemptRecovery st.recoveryAttempts (mkCookieExpiredError n)).1 = false
    exact ErrorHandler.attemptRecovery_cookieExpired_false _ _ rfl

/-- C9 witness: one concrete cookie with a non-zero past expiry is
returned exactly, and a concrete `CookieExpiredError` is not recovered. -/
theorem claim9_witness :
    ({ name := "session", value := "v", domain := "example.com", path := none,
       secure := none, httpOnly := none, sameSite := none,
       expires := some 5 } : Cookie).expires = some 5 ∧
    CookieManager.detectExpiredCookies 1760140800000
        [{ name := "session", value := "v", domain := "example.com", path := none,
           secure := none, httpOnly := none, sameSite := none, expires := some 5 }] =
      [{ name := "session", value := "v", domain := "example.com", path := none,
         secure := none, httpOnly := none, sameSite := none, expires := some 5 }] ∧
    ((ErrorHandler.handle ErrorHandler.initialState
        (JSError.extraction (mkCookieExpiredError (some 1)))).1).recovered = false :=
  ⟨rfl,
   claim9_amended_cookieExpiry.1 1760140800000 [] []
     { name := "session", value := "v", domain := "example.com", path := none,
       secure := none, httpOnly := none, sameSite := none, expires := some 5 }
     5 rfl (by decide) (by decide) (by intro x hx; simp at hx),
   claim9_amended_cookieExpiry.2.2 ErrorHandler.initialState (some 1)⟩
